import Mathlib

/-!
# Verification of the nagios_exporter metric pipeline

Shallow embedding of the linode-obs/nagios_exporter sources.  The repository
contains several revisions of the exporter; where they differ the embedding
keeps one definition per revision:

* definitions suffixed `MainGo` follow `src/main.go` (the earliest revision);
* unsuffixed definitions follow the newest revision (the first file in
  `src/unnamed/part_002`, which routes all counter emission through
  `UpdateCommonMetrics` and adds the nagiostats collection mode).

Go `float64` record fields are modelled as `ℚ`: every value the exporter
reads out of the upstream JSON is a decimal literal that `float64` represents
exactly at the magnitudes involved, and the pipeline only compares them for
equality against small integer constants.  Counter variables are modelled as
`ℕ` (the Go code increments `int` or `float64` counters by one, exactly).
-/

namespace NagiosExporter

/-- NagiosXI API endpoint constants (`const` block shared by all revisions). -/
def hoststatusAPI : String := "/objects/hoststatus"

def servicestatusAPI : String := "/objects/servicestatus"

def systeminfoAPI : String := "/system/info"

def systemstatusAPI : String := "/system/status"

/-- One element of `hostStatus.Hoststatus`: the decoded fields of a host
status record (`type hostStatus struct`, newest revision; `src/main.go` has
the same fields minus `problem_has_been_acknowledged`, which the embedding
keeps since no `main.go` logic reads it). -/
structure HostRecord where
  hostObjectID : ℚ
  checkType : ℚ
  currentState : ℚ
  isFlapping : ℚ
  scheduledDowntimeDepth : ℚ
  problemHasBeenAcknowledged : ℚ
  deriving DecidableEq

/-- One element of `serviceStatus.Servicestatus`. -/
structure ServiceRecord where
  hasBeenChecked : ℚ
  shouldBeScheduled : ℚ
  checkType : ℚ
  currentState : ℚ
  isFlapping : ℚ
  scheduledDowntimeDepth : ℚ
  problemHasBeenAcknowledged : ℚ
  deriving DecidableEq

/-- The host counters accumulated by the `for _, v := range
hostStatusObject.Hoststatus` loop of `QueryAPIsAndUpdateMetrics`. -/
structure HostCounts where
  total : ℕ
  active : ℕ
  passive : ℕ
  up : ℕ
  down : ℕ
  unreachable : ℕ
  flapping : ℕ
  downtime : ℕ
  acknowledged : ℕ
  deriving DecidableEq

/-- The service counters accumulated by the service loop of
`QueryAPIsAndUpdateMetrics` (the newest revision; `src/main.go` additionally
counts `has_been_checked == 0`, which no emission uses). -/
structure ServiceCounts where
  total : ℕ
  scheduled : ℕ
  active : ℕ
  passive : ℕ
  ok : ℕ
  warn : ℕ
  critical : ℕ
  unknown : ℕ
  flapping : ℕ
  downtime : ℕ
  acknowledged : ℕ
  deriving DecidableEq

def HostCounts.zero : HostCounts := ⟨0, 0, 0, 0, 0, 0, 0, 0, 0⟩

def ServiceCounts.zero : ServiceCounts := ⟨0, 0, 0, 0, 0, 0, 0, 0, 0, 0, 0⟩

/-- Body of the host loop.  The Go `switch` on `current_state` with cases
`0/1/2` is written as three independent guarded increments: the guards are
mutually exclusive, so at most one fires, exactly as in the `switch`. -/
def hostStep (c : HostCounts) (v : HostRecord) : HostCounts where
  total := c.total + 1
  active := c.active + (if v.checkType = 0 then 1 else 0)
  passive := c.passive + (if v.checkType = 0 then 0 else 1)
  up := c.up + (if v.currentState = 0 then 1 else 0)
  down := c.down + (if v.currentState = 1 then 1 else 0)
  unreachable := c.unreachable + (if v.currentState = 2 then 1 else 0)
  flapping := c.flapping + (if v.isFlapping = 1 then 1 else 0)
  downtime := c.downtime + (if v.scheduledDowntimeDepth = 1 then 1 else 0)
  acknowledged := c.acknowledged + (if v.problemHasBeenAcknowledged = 1 then 1 else 0)

/-- Body of the service loop (same shape: `switch` cases `0/1/2/3`). -/
def serviceStep (c : ServiceCounts) (v : ServiceRecord) : ServiceCounts where
  total := c.total + 1
  scheduled := c.scheduled + (if v.shouldBeScheduled = 0 then 1 else 0)
  active := c.active + (if v.checkType = 0 then 1 else 0)
  passive := c.passive + (if v.checkType = 0 then 0 else 1)
  ok := c.ok + (if v.currentState = 0 then 1 else 0)
  warn := c.warn + (if v.currentState = 1 then 1 else 0)
  critical := c.critical + (if v.currentState = 2 then 1 else 0)
  unknown := c.unknown + (if v.currentState = 3 then 1 else 0)
  flapping := c.flapping + (if v.isFlapping = 1 then 1 else 0)
  downtime := c.downtime + (if v.scheduledDowntimeDepth = 1 then 1 else 0)
  acknowledged := c.acknowledged + (if v.problemHasBeenAcknowledged = 1 then 1 else 0)

/-- The single categorization pass over the decoded host list. -/
def countHosts (l : List HostRecord) : HostCounts :=
  l.foldl hostStep HostCounts.zero

/-- The single categorization pass over the decoded service list. -/
def countServices (l : List ServiceRecord) : ServiceCounts :=
  l.foldl serviceStep ServiceCounts.zero

/-- One emitted gauge sample: fully-qualified metric name, label values in
declaration order, sample value. -/
structure Sample where
  name : String
  labels : List String
  value : ℕ
  deriving DecidableEq

/-- Value of the first sample with the given name and label values, mirroring
how a scraper identifies a series in the exposition. -/
def sampleValue (samples : List Sample) (name : String) (labels : List String) :
    Option ℕ :=
  (samples.find? fun s => s.name == name && s.labels == labels).map Sample.value

/-- The per-state and per-category gauge emissions of `UpdateCommonMetrics`
(newest revision, `MustNewConstMetric` calls in source order).  The
`build_info` constant gauge and the check-performance histograms/gauges take
the system-status-detail arguments, not these counters, and are outside the
claims, so they are not listed. -/
def updateCommonStatusSamples (h : HostCounts) (s : ServiceCounts) : List Sample :=
  [ ⟨"nagios_hosts_total", [], h.total⟩,
    ⟨"nagios_hosts_checked_total", ["active"], h.active⟩,
    ⟨"nagios_hosts_checked_total", ["passive"], h.passive⟩,
    ⟨"nagios_hosts_status_total", ["up"], h.up⟩,
    ⟨"nagios_hosts_status_total", ["down"], h.down⟩,
    ⟨"nagios_hosts_status_total", ["unreachable"], h.unreachable⟩,
    ⟨"nagios_hosts_status_total", ["flapping"], h.flapping⟩,
    ⟨"nagios_hosts_downtime_total", [], h.downtime⟩,
    ⟨"nagios_services_total", [], s.total⟩,
    ⟨"nagios_services_checked_total", ["active"], s.active⟩,
    ⟨"nagios_services_checked_total", ["passive"], s.passive⟩,
    ⟨"nagios_services_status_total", ["ok"], s.ok⟩,
    ⟨"nagios_services_status_total", ["warn"], s.warn⟩,
    ⟨"nagios_services_status_total", ["critical"], s.critical⟩,
    ⟨"nagios_services_status_total", ["unknown"], s.unknown⟩,
    ⟨"nagios_services_status_total", ["flapping"], s.flapping⟩,
    ⟨"nagios_services_downtime_total", [], s.downtime⟩ ]

/-- The service metric emissions of `src/main.go` (lines 457-487,
`MustNewConstMetric` calls in source order).  Two arguments are taken
verbatim from the source: the `services_passively_checked_total` sample is
built from `hostsPassiveCheckCount` and the `services_critical_total` sample
from `servicesWarnCount`. -/
def mainGoServiceSamples (h : HostCounts) (s : ServiceCounts) : List Sample :=
  [ ⟨"nagios_services_actively_checked_total", [], s.active⟩,
    ⟨"nagios_services_passively_checked_total", [], h.passive⟩,
    ⟨"nagios_services_ok_total", [], s.ok⟩,
    ⟨"nagios_services_warn_total", [], s.warn⟩,
    ⟨"nagios_services_critical_total", [], s.warn⟩,
    ⟨"nagios_services_unknown_total", [], s.unknown⟩,
    ⟨"nagios_services_flapping_total", [], s.flapping⟩,
    ⟨"nagios_services_downtime_total", [], s.downtime⟩ ]

/-- URL the `// get system status` block of `src/main.go` queries
(line 303). -/
def systeminfoURLMainGo (endpoint apikey : String) : String :=
  endpoint ++ systeminfoAPI ++ "?apikey=" ++ apikey

/-- URL the `// host status` block of `src/main.go` queries (line 320): the
source concatenates `systeminfoAPI` here, not `hoststatusAPI`. -/
def hoststatusURLMainGo (endpoint apikey : String) : String :=
  endpoint ++ systeminfoAPI ++ "?apikey=" ++ apikey

/-- URL the `// host status` block of the newest revision queries
(`part_002` line 360). -/
def hoststatusURL (endpoint apikey : String) : String :=
  endpoint ++ hoststatusAPI ++ "?apikey=" ++ apikey

/-! ## The connectivity probe and the `up` gauge

`Collect` (API mode) first runs `TestNagiosConnectivity`, which fetches
`/system/status` through `QueryAPIs` and decodes `is_currently_running`.
`QueryAPIs` calls `log.Fatal` — terminating the process — when `client.Do`
returns an error; `TestNagiosConnectivity` likewise calls `log.Fatal` when
`json.Unmarshal` fails.  Only when both succeed does `Collect` emit the `up`
gauge with the decoded value and proceed to the remaining endpoint queries. -/

/-- Result of the outbound HTTP GET for `/system/status`: either `client.Do`
fails (upstream unreachable), or a body is returned and decoded. -/
inductive StatusFetch where
  /-- `client.Do` returned an error. -/
  | netError
  /-- A body was returned; `none` stands for a body `json.Unmarshal`
  rejects, `some r` for a body decoding to `is_currently_running = r`. -/
  | okBody (decoded : Option ℚ)
  deriving DecidableEq

/-- What the scrape does at the `up`-gauge stage of `Collect`. -/
inductive ScrapeOutcome where
  /-- `log.Fatal` ran: the process terminates, nothing is emitted. -/
  | fatal
  /-- The `up` gauge was emitted with this value and collection continued
  into `QueryAPIsAndUpdateMetrics`. -/
  | upEmitted (value : ℚ)
  deriving DecidableEq

/-- Model of `QueryAPIs` for the system-status URL: `log.Fatal` on a transport error
(`part_002` line 323), otherwise the body. -/
def queryAPIsStatus : StatusFetch → Option (Option ℚ)
  | .netError => none
  | .okBody b => some b

/-- Model of `TestNagiosConnectivity`: decode the body, `log.Fatal` on a decode
error, else return `systemStatusObject.Running`. -/
def testNagiosConnectivity (f : StatusFetch) : Option ℚ :=
  match queryAPIsStatus f with
  | none => none
  | some none => none
  | some (some r) => some r

/-- The `up`-gauge stage of `Collect` (API mode): a `log.Fatal` anywhere in
the probe terminates the scrape, otherwise `up` is emitted with the decoded
running value. -/
def collectUp (f : StatusFetch) : ScrapeOutcome :=
  match testNagiosConnectivity f with
  | none => .fatal
  | some r => .upEmitted r

/-- A host record that is two levels deep in scheduled downtime. -/
def hostDepthTwo : HostRecord :=
  { hostObjectID := 7, checkType := 0, currentState := 0, isFlapping := 0
    scheduledDowntimeDepth := 2, problemHasBeenAcknowledged := 0 }

/-- A service record in hard critical state (`current_state = 2`). -/
def serviceCritical : ServiceRecord :=
  { hasBeenChecked := 1, shouldBeScheduled := 1, checkType := 0
    currentState := 2, isFlapping := 0, scheduledDowntimeDepth := 0
    problemHasBeenAcknowledged := 0 }

/-- A service record whose check type is passive (`check_type = 1`). -/
def servicePassive : ServiceRecord :=
  { hasBeenChecked := 1, shouldBeScheduled := 1, checkType := 1
    currentState := 0, isFlapping := 0, scheduledDowntimeDepth := 0
    problemHasBeenAcknowledged := 0 }

/-- A host record whose check type is passive (`check_type = 1`). -/
def hostPassive : HostRecord :=
  { hostObjectID := 3, checkType := 1, currentState := 0, isFlapping := 0
    scheduledDowntimeDepth := 0, problemHasBeenAcknowledged := 0 }

/-! ## The nagiostats collection mode

`QueryNagiostatsAndUpdateMetrics` runs the nagiostats binary in MRTG mode
with a comma delimiter, splits its stdout on `","` and reads the fields at
fixed positions matching the requested MRTG list.  Each field is run through
`strconv.ParseFloat(metric, 64)` with the error discarded, so a field that
fails to parse contributes the zero value.

`ParseFloat` is standard-library code; it is modelled here over `ℚ` for the
plain decimal notation (`[+-]?digits[.digits]?([eE][+-]?digits)?`) that
`nagiostats` emits, returning `none` on any other input.  Binary float
rounding and the special forms (`Inf`, `NaN`, hex mantissas, digit
underscores) are not representable in this embedding. -/

/-- Numeric value of a digit string (most significant first). -/
def digitsVal (l : List Char) : ℕ :=
  l.foldl (fun a c => 10 * a + (c.toNat - '0'.toNat)) 0

/-- Go `strings.Split` with a one-character separator, on character lists:
the (possibly empty) fields between separators; never the empty list. -/
def splitOnSep (sep : Char) : List Char → List (List Char)
  | [] => [[]]
  | c :: t =>
      if c = sep then [] :: splitOnSep sep t
      else
        match splitOnSep sep t with
        | [] => [[c]]
        | f :: fs => (c :: f) :: fs

/-- Model of `strconv.ParseFloat` on the decimal fragment of its grammar: `none`
models a parse error (where Go returns value `0` alongside the error). -/
def parseFloatCore (cs : List Char) : Option ℚ :=
  let (sign, cs1) : ℚ × List Char :=
    match cs with
    | '+' :: r => (1, r)
    | '-' :: r => (-1, r)
    | r => (1, r)
  let ip := cs1.takeWhile Char.isDigit
  let cs2 := cs1.dropWhile Char.isDigit
  let (fp, cs3) : List Char × List Char :=
    match cs2 with
    | '.' :: r => (r.takeWhile Char.isDigit, r.dropWhile Char.isDigit)
    | r => ([], r)
  if ip.length + fp.length = 0 then none
  else
    let mant : ℚ := (digitsVal ip : ℚ) + (digitsVal fp : ℚ) / ((10 : ℚ) ^ fp.length)
    match cs3 with
    | [] => some (sign * mant)
    | e :: r =>
        if e = 'e' ∨ e = 'E' then
          let (epos, r1) : Bool × List Char :=
            match r with
            | '+' :: r2 => (true, r2)
            | '-' :: r2 => (false, r2)
            | r2 => (true, r2)
          let ed := r1.takeWhile Char.isDigit
          let rest := r1.dropWhile Char.isDigit
          if ed.length = 0 ∨ rest ≠ [] then none
          else if epos then some (sign * mant * (10 : ℚ) ^ digitsVal ed)
          else some (sign * mant / (10 : ℚ) ^ digitsVal ed)
        else none

/-- The value the loop `metric, _ := strconv.ParseFloat(metric, 64)` stores:
the parsed value, or `0` when parsing fails. -/
def goParseFloatChars (cs : List Char) : ℚ :=
  (parseFloatCore cs).getD 0

/-- The local variables `QueryNagiostatsAndUpdateMetrics` fills from the
split output, named as in the source. -/
structure NagiostatsMetrics where
  nagiosVersion : String
  hostsCount : ℚ
  hostsActiveCheckCount : ℚ
  hostsPassiveCheckCount : ℚ
  hostsUpCount : ℚ
  hostsDownCount : ℚ
  hostsUnreachableCount : ℚ
  hostsFlapCount : ℚ
  hostsDowntimeCount : ℚ
  servicesCount : ℚ
  servicesActiveCheckCount : ℚ
  servicesPassiveCheckCount : ℚ
  servicesOkCount : ℚ
  servicesWarnCount : ℚ
  servicesUnknownCount : ℚ
  servicesCriticalCount : ℚ
  servicesFlapCount : ℚ
  servicesDowntimeCount : ℚ
  activehostchecks1m : ℚ
  activehostchecks5m : ℚ
  activehostchecks15m : ℚ
  passivehostchecks1m : ℚ
  passivehostchecks5m : ℚ
  passivehostchecks15m : ℚ
  activeservicechecks1m : ℚ
  activeservicechecks5m : ℚ
  activeservicechecks15m : ℚ
  passiveservicechecks1m : ℚ
  passiveservicechecks5m : ℚ
  passiveservicechecks15m : ℚ
  activehostchecklatencyavg : ℚ
  activehostchecklatencymin : ℚ
  activehostchecklatencymax : ℚ
  activehostcheckexecutionavg : ℚ
  activehostcheckexecutionmin : ℚ
  activehostcheckexecutionmax : ℚ
  activeservicechecklatencyavg : ℚ
  activeservicechecklatencymin : ℚ
  activeservicechecklatencymax : ℚ
  activeservicecheckexecutionavg : ℚ
  activeservicecheckexecutionmin : ℚ
  activeservicecheckexecutionmax : ℚ
  deriving DecidableEq

/-- The field-extraction part of `QueryNagiostatsAndUpdateMetrics`: split the
binary's stdout on `","`, parse every field, and read positions `0`-`41`.
The Go code indexes `cmdSplice[0]` and `metricSlice[1]`..`metricSlice[41]`
without bounds checks; on fewer than 42 fields it panics, modelled as
`none`.  Under the length guard `List.getD` is exactly the in-bounds
access. -/
def queryNagiostats (stdout : String) : Option NagiostatsMetrics :=
  let cmdSplice := splitOnSep ',' stdout.toList
  let metricSlice := cmdSplice.map goParseFloatChars
  if 42 ≤ cmdSplice.length then
    some
      { nagiosVersion := ⟨cmdSplice.getD 0 []⟩               -- NAGIOSVERSION
        hostsCount := metricSlice.getD 1 0                   -- NUMHOSTS
        hostsActiveCheckCount := metricSlice.getD 2 0        -- NUMHSTACTCHK60M
        hostsPassiveCheckCount := metricSlice.getD 3 0       -- NUMHSTPSVCHK60M
        hostsUpCount := metricSlice.getD 4 0                 -- NUMHSTUP
        hostsDownCount := metricSlice.getD 5 0               -- NUMHSTDOWN
        hostsUnreachableCount := metricSlice.getD 6 0        -- NUMHSTUNR
        hostsFlapCount := metricSlice.getD 7 0               -- NUMHSTFLAPPING
        hostsDowntimeCount := metricSlice.getD 8 0           -- NUMHSTDOWNTIME
        servicesCount := metricSlice.getD 9 0                -- NUMSERVICES
        servicesActiveCheckCount := metricSlice.getD 10 0    -- NUMSVCACTCHK60M
        servicesPassiveCheckCount := metricSlice.getD 11 0   -- NUMSVCPSVCHK60M
        servicesOkCount := metricSlice.getD 12 0             -- NUMSVCOK
        servicesWarnCount := metricSlice.getD 13 0           -- NUMSVCWARN
        servicesUnknownCount := metricSlice.getD 14 0        -- NUMSVCUNKN
        servicesCriticalCount := metricSlice.getD 15 0       -- NUMSVCCRIT
        servicesFlapCount := metricSlice.getD 16 0           -- NUMSVCFLAPPING
        servicesDowntimeCount := metricSlice.getD 17 0       -- NUMSVCDOWNTIME
        activehostchecks1m := metricSlice.getD 18 0          -- NUMHSTACTCHK1M
        activehostchecks5m := metricSlice.getD 19 0          -- NUMHSTACTCHK5M
        activehostchecks15m := metricSlice.getD 20 0         -- NUMHSTACTCHK15M
        passivehostchecks1m := metricSlice.getD 21 0         -- NUMHSTPSVCHK1M
        passivehostchecks5m := metricSlice.getD 22 0         -- NUMHSTPSVCHK5M
        passivehostchecks15m := metricSlice.getD 23 0        -- NUMHSTPSVCHK15M
        activeservicechecks1m := metricSlice.getD 24 0       -- NUMSVCACTCHK1M
        activeservicechecks5m := metricSlice.getD 25 0       -- NUMSVCACTCHK5M
        activeservicechecks15m := metricSlice.getD 26 0      -- NUMSVCACTCHK15M
        passiveservicechecks1m := metricSlice.getD 27 0      -- NUMSVCPSVCHK1M
        passiveservicechecks5m := metricSlice.getD 28 0      -- NUMSVCPSVCHK5M
        passiveservicechecks15m := metricSlice.getD 29 0     -- NUMSVCPSVCHK15M
        activehostchecklatencyavg := metricSlice.getD 30 0   -- AVGACTHSTLAT
        activehostchecklatencymin := metricSlice.getD 31 0   -- MINACTHSTLAT
        activehostchecklatencymax := metricSlice.getD 32 0   -- MAXACTHSTLAT
        activehostcheckexecutionavg := metricSlice.getD 33 0 -- AVGACTHSTEXT
        activehostcheckexecutionmin := metricSlice.getD 34 0 -- MINACTHSTEXT
        activehostcheckexecutionmax := metricSlice.getD 35 0 -- MAXACTHSTEXT
        activeservicechecklatencyavg := metricSlice.getD 36 0   -- AVGACTSVCLAT
        activeservicechecklatencymin := metricSlice.getD 37 0   -- MINACTSVCLAT
        activeservicechecklatencymax := metricSlice.getD 38 0   -- MAXACTSVCLAT
        activeservicecheckexecutionavg := metricSlice.getD 39 0 -- AVGACTSVCEXT
        activeservicecheckexecutionmin := metricSlice.getD 40 0 -- MINACTSVCEXT
        activeservicecheckexecutionmax := metricSlice.getD 41 0 -- MAXACTSVCEXT
      }
  else none

/-- A 42-field MRTG output: a version label followed by 41 zero fields. -/
def nagiostatsSampleOut : String :=
  "xi-1,0,0,0,0,0,0,0,0,0,0,0,0,0,0,0,0,0,0,0,0,0,0,0,0,0,0,0,0,0,0,0,0,0,0,0,0,0,0,0,0,0"

/-! ## `Describe`

The newest revision declares twenty metric descriptors at package level but
its `Describe` guards some of them behind `e.nagiostatsPath == ""`: the
acknowledgement and checked-total descriptors ("nagiostats has no support
for ACK status") and the user descriptors ("we cannot get user information
from Nagios Core 3/4").  Descriptors are identified here by their
fully-qualified names (`prometheus.BuildFQName(namespace, "", name)` =
`"nagios_" + name`). -/

/-- Every descriptor declared in the package-level `var` block of the newest
revision, in declaration order. -/
def declaredDescs : List String :=
  [ "nagios_up",
    "nagios_hosts_total",
    "nagios_hosts_checked_total",
    "nagios_hosts_status_total",
    "nagios_hosts_downtime_total",
    "nagios_hosts_acknowledges_total",
    "nagios_services_total",
    "nagios_services_checked_total",
    "nagios_services_status_total",
    "nagios_services_downtime_total",
    "nagios_services_acknowledges_total",
    "nagios_version_info",
    "nagios_build_info",
    "nagios_host_checks_minutes",
    "nagios_service_checks_minutes",
    "nagios_host_checks_performance_seconds",
    "nagios_service_checks_performance_seconds",
    "nagios_users_total",
    "nagios_users_privileges_total",
    "nagios_users_status_total" ]

/-- The descriptors `Describe` only sends when `e.nagiostatsPath == ""`
(API mode). -/
def apiOnlyDescs : List String :=
  [ "nagios_hosts_acknowledges_total",
    "nagios_hosts_checked_total",
    "nagios_services_acknowledges_total",
    "nagios_services_checked_total",
    "nagios_users_total",
    "nagios_users_privileges_total",
    "nagios_users_status_total" ]

/-- Model of `(e *Exporter) Describe` of the newest revision: the descriptors sent on
the channel, in source order, as a function of `e.nagiostatsPath`. -/
def describeDescs (nagiostatsPath : String) : List String :=
  [ "nagios_up",
    "nagios_hosts_total",
    "nagios_hosts_status_total",
    "nagios_hosts_downtime_total" ]
  ++ (if nagiostatsPath = "" then
        ["nagios_hosts_acknowledges_total", "nagios_hosts_checked_total"]
      else [])
  ++ [ "nagios_services_total",
       "nagios_services_status_total",
       "nagios_services_downtime_total" ]
  ++ (if nagiostatsPath = "" then
        ["nagios_services_acknowledges_total", "nagios_services_checked_total"]
      else [])
  ++ [ "nagios_version_info",
       "nagios_build_info",
       "nagios_host_checks_minutes",
       "nagios_service_checks_minutes",
       "nagios_host_checks_performance_seconds",
       "nagios_service_checks_performance_seconds" ]
  ++ (if nagiostatsPath = "" then
        ["nagios_users_total", "nagios_users_privileges_total",
         "nagios_users_status_total"]
      else [])

/-! ## API-key redaction

Two scrubbing paths exist: `sanitizeAPIKeyErrors` rewrites HTTP client error
messages through the regular expression `(apikey=)(.*)` (whose `.` does not
cross a newline, so within each line everything from the first `apikey=` on
is replaced by `apikey=<redactedAPIKey>`), and `nagiosFormatter.Format`
post-processes every formatted log entry with
`strings.ReplaceAll(log, f.APIKey, "<redactedAPIKey>")` followed by
`bytes.Trim(cleanLog, f.APIKey)`.  Both are modelled on character lists. -/

/-- The replacement text `<redactedAPIKey>`. -/
def redactedChars : List Char := "<redactedAPIKey>".toList

/-- The regular-expression literal `apikey=`. -/
def apikeyPat : List Char := "apikey=".toList

/-- Go `strings.ReplaceAll(s, key, rep)` for non-empty `key`: replace the
non-overlapping occurrences of `key` left to right.  (Go interleaves `rep`
between characters when `key` is empty; the redaction claims concern a
non-empty configured API key, so that case is left as the identity.) -/
def goReplaceAll (key rep : List Char) : List Char → List Char
  | [] => []
  | c :: t =>
      if h : key ≠ [] ∧ key <+: (c :: t) then
        rep ++ goReplaceAll key rep ((c :: t).drop key.length)
      else
        c :: goReplaceAll key rep t
termination_by s => s.length
decreasing_by
  · have hk : 0 < key.length := List.length_pos.mpr h.1
    simp only [List.length_drop, List.length_cons]
    omega
  · simp

/-- Go `bytes.Trim(s, cutset)`: remove the leading and trailing characters
that appear in `cutset`. -/
def goTrim (s cutset : List Char) : List Char :=
  ((s.dropWhile (fun c => c ∈ cutset)).reverse.dropWhile
      (fun c => c ∈ cutset)).reverse

/-- Model of `nagiosFormatter.Format` applied to the text the embedded
`log.TextFormatter` produced for an entry: replace every occurrence of
`f.APIKey`, then trim with the key as cutset. -/
def nagiosFormatterFormat (apiKey entry : List Char) : List Char :=
  goTrim (goReplaceAll apiKey redactedChars entry) apiKey

/-- Index of the first occurrence of `pat` (the regexp engine's leftmost
match position). -/
def firstIdx (pat : List Char) : List Char → Option ℕ
  | [] => if pat = [] then some 0 else none
  | c :: t =>
      if pat <+: (c :: t) then some 0
      else (firstIdx pat t).map (· + 1)

/-- One line of the `(apikey=)(.*)` rewrite: everything from the first
`apikey=` to the end of the line becomes `apikey=<redactedAPIKey>`
(the replacement template is `${1}<redactedAPIKey>`). -/
def sanitizeLine (line : List Char) : List Char :=
  match firstIdx apikeyPat line with
  | none => line
  | some i => line.take i ++ apikeyPat ++ redactedChars

/-- Model of `sanitizeAPIKeyErrors` on the error message text: the regexp is applied
to each line (`.` does not match `\n` and Go regexp scanning continues after
each greedy line-tail match). -/
def sanitizeAPIKeyErrors (msg : List Char) : List Char :=
  List.intercalate ['\n'] ((splitOnSep '\n' msg).map sanitizeLine)

/-! ## `GetLatestNagiosXIVersion`

The `get_nagios_version` package exists in two revisions: part_005 walks the
token stream of `html.NewTokenizer` and returns the first `TextToken` whose
data starts with `xi-`; part_006 parses the page with `html.Parse` and
recursively traverses the node tree, returning the first `TextNode` whose
data starts with `xi-` (propagating the first non-empty result out of the
child loop).  The two revisions therefore work on different representations
of the same raw input: the flat token stream, and the tree the HTML5
tree-construction algorithm builds from that stream.  Tree construction does
not preserve the text tokens one-to-one — `addText` appends a character run
to a preceding text-node child, so runs separated only by ignored tokens
(for instance a doctype token outside the "initial" insertion mode, which is
a parse error and dropped) merge into a single text node, and foster
parenting moves non-cell table text.  Each side is embedded over its own
representation; the counterexample below exhibits the resulting divergence.
`strings.HasPrefix(s, p)` is modelled as `p.toList <+: s.toList`. -/

/-- Model of `strings.HasPrefix(d, "xi-")`: the data starts with `xi-`. -/
def hasXiPre (d : String) : Prop := "xi-".toList <+: d.toList

instance (d : String) : Decidable (hasXiPre d) :=
  inferInstanceAs (Decidable ("xi-".toList <+: d.toList))

/-- The `html.NodeType` enumeration of the `golang.org/x/net/html` package. -/
inductive NodeType where
  | errorNode
  | textNode
  | documentNode
  | elementNode
  | commentNode
  | doctypeNode
  deriving DecidableEq

/-- A parsed HTML node: its type, its data (text content for text nodes,
tag/comment data otherwise) and its children in document order. -/
inductive HtmlNode where
  | mk (ntype : NodeType) (data : String) (children : List HtmlNode)

mutual

/-- The recursive closure `traverse` of the part_006 revision: return the
data of a text node starting with `xi-`, otherwise the first non-empty
result among the children. -/
def traverse : HtmlNode → String
  | .mk t d cs =>
      if t = NodeType.textNode ∧ hasXiPre d then d
      else traverseChildren cs

/-- The `for child := node.FirstChild; child != nil; child = child.NextSibling`
loop of `traverse`: return the first non-empty recursive result. -/
def traverseChildren : List HtmlNode → String
  | [] => ""
  | c :: rest =>
      let result := traverse c
      if result ≠ "" then result else traverseChildren rest

end

/-- One token of the tokenizer's stream: a text token carrying its data, or
any non-text token (start/end tag, comment, doctype). -/
inductive HtmlToken where
  | text (data : String)
  | other

/-- The token loop of the part_005 revision: skip non-text tokens, return
the first text token whose data starts with `xi-`; return `""` at the
`ErrorToken` that marks the end of the stream. -/
def scanTokens : List HtmlToken → String
  | [] => ""
  | HtmlToken.text d :: rest =>
      if hasXiPre d then d else scanTokens rest
  | HtmlToken.other :: rest => scanTokens rest

mutual

/-- The text-node data of a parse tree, in document (pre-order) order. -/
def textData : HtmlNode → List String
  | .mk t d cs =>
      if t = NodeType.textNode then d :: textDataChildren cs
      else textDataChildren cs

/-- Text-node data of a sibling list, in document order. -/
def textDataChildren : List HtmlNode → List String
  | [] => []
  | c :: rest => textData c ++ textDataChildren rest

end

/-- The specification both revisions are measured against: the first text in
document order starting with `xi-`, or `""` when none exists. -/
def firstXiVersion : List String → String
  | [] => ""
  | d :: rest =>
      if hasXiPre d then d else firstXiVersion rest

/-- The data of the text tokens of a stream, in stream order: the only
tokens part_005's loop inspects. -/
def textTokens : List HtmlToken → List String
  | [] => []
  | HtmlToken.text d :: rest => d :: textTokens rest
  | HtmlToken.other :: rest => textTokens rest

/-- The token stream `html.NewTokenizer` yields for the raw input
`xi<!DOCTYPE html>-9`: the character run `xi`, the doctype token (a
non-text token), the character run `-9`, then the EOF `ErrorToken` that
ends the list. -/
def doctypeSplitStream : List HtmlToken :=
  [HtmlToken.text "xi", HtmlToken.other, HtmlToken.text "-9"]

/-- The document `html.Parse` builds for the same raw input
`xi<!DOCTYPE html>-9`, per the HTML5 tree-construction algorithm the
library implements: the leading run `xi` is inserted as text under the
implied `body`; the doctype token outside the "initial" insertion mode is a
parse error and ignored; the following run `-9` is then appended to the
preceding text node by `addText`.  The tree thus holds the single text node
`xi-9` that no single token of `doctypeSplitStream` carries. -/
def doctypeSplitDoc : HtmlNode :=
  .mk .documentNode ""
    [.mk .elementNode "html"
      [.mk .elementNode "head" [],
       .mk .elementNode "body"
         [.mk .textNode "xi-9" []]]]

/-- A token stream and a parse tree that carry the same text in the same
order (as produced for, e.g., `<html>xi-5.9.3</html>`). -/
def sameTextStream : List HtmlToken :=
  [HtmlToken.other, HtmlToken.text "xi-5.9.3", HtmlToken.other]

/-- The parse tree matching `sameTextStream`. -/
def sameTextDoc : HtmlNode :=
  .mk .documentNode ""
    [.mk .elementNode "html"
      [.mk .textNode "xi-5.9.3" []]]

/-! ## Theorems -/

/-! ## Characterization of the categorization pass -/

theorem foldl_hostStep_downtime (l : List HostRecord) (acc : HostCounts) :
    (l.foldl hostStep acc).downtime
      = acc.downtime + l.countP (fun v => v.scheduledDowntimeDepth = 1) := by
  induction l generalizing acc with
  | nil => simp
  | cons a t ih =>
      simp only [List.foldl_cons, ih, hostStep, List.countP_cons]
      by_cases h : a.scheduledDowntimeDepth = 1
      all_goals simp [h]
      all_goals omega

theorem foldl_serviceStep_downtime (l : List ServiceRecord) (acc : ServiceCounts) :
    (l.foldl serviceStep acc).downtime
      = acc.downtime + l.countP (fun v => v.scheduledDowntimeDepth = 1) := by
  induction l generalizing acc with
  | nil => simp
  | cons a t ih =>
      simp only [List.foldl_cons, ih, serviceStep, List.countP_cons]
      by_cases h : a.scheduledDowntimeDepth = 1
      all_goals simp [h]
      all_goals omega

theorem countHosts_downtime (l : List HostRecord) :
    (countHosts l).downtime = l.countP (fun v => v.scheduledDowntimeDepth = 1) := by
  simp [countHosts, foldl_hostStep_downtime, HostCounts.zero]

theorem countServices_downtime (l : List ServiceRecord) :
    (countServices l).downtime = l.countP (fun v => v.scheduledDowntimeDepth = 1) := by
  simp [countServices, foldl_serviceStep_downtime, ServiceCounts.zero]

/-- C1: the categorization pass does count one state counter per recognized
state code (here: one critical record yields `critical = 1`), and the newest
revision's `UpdateCommonMetrics` emits the critical sample from that
counter; but `src/main.go` (line 474) builds the `services_critical_total`
sample from `servicesWarnCount`, so at this input it emits `0` instead of
the claimed `1`. -/
theorem servicesCriticalSampleDivergence :
    (countServices [serviceCritical]).critical
        = [serviceCritical].countP (fun v => v.currentState = 2) ∧
    [serviceCritical].countP (fun v => v.currentState = 2) = 1 ∧
    sampleValue (updateCommonStatusSamples (countHosts []) (countServices [serviceCritical]))
        "nagios_services_status_total" ["critical"] = some 1 ∧
    sampleValue (mainGoServiceSamples (countHosts []) (countServices [serviceCritical]))
        "nagios_services_critical_total" [] = some 0 := by decide

/-- C2 counterexample: when the HTTP request to `/system/status` fails, the
scrape does not emit an `up` gauge of `0` — `QueryAPIs` calls `log.Fatal`
and the process terminates before anything is emitted. -/
theorem collectUpNetErrorFatal :
    collectUp StatusFetch.netError = ScrapeOutcome.fatal ∧
    ScrapeOutcome.fatal ≠ ScrapeOutcome.upEmitted 0 := by decide

/-- C2 amended: `up` is emitted with value `0` (and collection continues)
exactly when the status endpoint responds with a body decoding to
`is_currently_running = 0`; a failing HTTP request instead terminates the
process via `log.Fatal`. -/
theorem collectUpBehaviour :
    collectUp (StatusFetch.okBody (some 0)) = ScrapeOutcome.upEmitted 0 ∧
    collectUp StatusFetch.netError = ScrapeOutcome.fatal ∧
    collectUp (StatusFetch.okBody none) = ScrapeOutcome.fatal := by decide

/-- C3: in `src/main.go` the URL queried by the `// host status` block is
built from `systeminfoAPI`, i.e. it coincides with the system-info URL and
differs from the `/objects/hoststatus` URL the claim (and the newest
revision) prescribe, so the host status counters of that revision are
computed from the `/system/info` response. -/
theorem hoststatusURLDivergence :
    (∀ endpoint apikey,
        hoststatusURLMainGo endpoint apikey = systeminfoURLMainGo endpoint apikey) ∧
    hoststatusURLMainGo "http://localhost/nagiosxi/api/v1" "k"
        = "http://localhost/nagiosxi/api/v1/system/info?apikey=k" ∧
    hoststatusURL "http://localhost/nagiosxi/api/v1" "k"
        = "http://localhost/nagiosxi/api/v1/objects/hoststatus?apikey=k" ∧
    hoststatusURLMainGo "http://localhost/nagiosxi/api/v1" "k"
        ≠ hoststatusURL "http://localhost/nagiosxi/api/v1" "k" :=
  ⟨fun _ _ => rfl, by decide, by decide, by decide⟩

/-- C4: with one passively checked host and an empty service list, the
claimed sample value is `0` (no service has `check_type ≠ 0`) and the newest
revision emits `0`; but `src/main.go` (line 462) builds the
`services_passively_checked_total` sample from `hostsPassiveCheckCount` and
emits `1`, so the sample depends on the host status list. -/
theorem servicesPassiveSampleDivergence :
    ([] : List ServiceRecord).countP (fun v => ¬ v.checkType = 0) = 0 ∧
    sampleValue (updateCommonStatusSamples (countHosts [hostPassive]) (countServices []))
        "nagios_services_checked_total" ["passive"] = some 0 ∧
    sampleValue (mainGoServiceSamples (countHosts [hostPassive]) (countServices []))
        "nagios_services_passively_checked_total" [] = some 1 := by decide

/-- C5 counterexample: a host record with `scheduled_downtime_depth = 2` is
in scheduled downtime under the claimed threshold reading (`depth ≥ 1`), yet
the loop's equality test `v.ScheduledDowntimeDepth == 1` does not count
it. -/
theorem downtimeDepthTwoNotCounted :
    (countHosts [hostDepthTwo]).downtime = 0 ∧
    [hostDepthTwo].countP (fun v => 1 ≤ v.scheduledDowntimeDepth) = 1 := by decide

/-- C5 amended: for every decoded host and service status list, the downtime
counters count exactly the records whose `scheduled_downtime_depth` equals
`1`; deeper records are not counted. -/
theorem downtimeCountsDepthEqOne (hl : List HostRecord) (sl : List ServiceRecord) :
    (countHosts hl).downtime = hl.countP (fun v => v.scheduledDowntimeDepth = 1) ∧
    (countServices sl).downtime = sl.countP (fun v => v.scheduledDowntimeDepth = 1) :=
  ⟨countHosts_downtime hl, countServices_downtime sl⟩

theorem goParseFloatChars_nil : goParseFloatChars [] = 0 := rfl

theorem getD_map_goParseFloatChars (l : List (List Char)) (i : ℕ) :
    (l.map goParseFloatChars).getD i 0 = goParseFloatChars (l.getD i []) := by
  induction l generalizing i with
  | nil => simp [goParseFloatChars_nil]
  | cons a t ih =>
      cases i with
      | zero => simp
      | succ n => simp only [List.map_cons, List.getD_cons_succ]; exact ih n

/-- C9: the field-extraction pass indexes positions `0`-`41` of the
comma-split output without bounds checks, so it succeeds exactly when the
stdout splits into at least 42 fields; with fewer fields an index access is
out of bounds (a Go panic, modelled as `none`). -/
theorem queryNagiostatsDefinedIffFields (stdout : String) :
    (queryNagiostats stdout).isSome ↔ 42 ≤ (splitOnSep ',' stdout.toList).length := by
  by_cases h : 42 ≤ (splitOnSep ',' stdout.toList).length <;>
    simp [queryNagiostats, h]

/-- C6: on stdout with at least 42 comma-separated fields, the extraction is
purely positional — field 0 becomes the version label verbatim and fields
1-41 are parsed as floats in the fixed MRTG order, through field 41 =
`MAXACTSVCEXT` (the active service check max execution time); and a field
whose parse fails contributes the value `0`. -/
theorem queryNagiostatsPositional (stdout : String)
    (h : 42 ≤ (splitOnSep ',' stdout.toList).length) :
    (queryNagiostats stdout = some
        { nagiosVersion := ⟨(splitOnSep ',' stdout.toList).getD 0 []⟩
          hostsCount := goParseFloatChars ((splitOnSep ',' stdout.toList).getD 1 [])
          hostsActiveCheckCount := goParseFloatChars ((splitOnSep ',' stdout.toList).getD 2 [])
          hostsPassiveCheckCount := goParseFloatChars ((splitOnSep ',' stdout.toList).getD 3 [])
          hostsUpCount := goParseFloatChars ((splitOnSep ',' stdout.toList).getD 4 [])
          hostsDownCount := goParseFloatChars ((splitOnSep ',' stdout.toList).getD 5 [])
          hostsUnreachableCount := goParseFloatChars ((splitOnSep ',' stdout.toList).getD 6 [])
          hostsFlapCount := goParseFloatChars ((splitOnSep ',' stdout.toList).getD 7 [])
          hostsDowntimeCount := goParseFloatChars ((splitOnSep ',' stdout.toList).getD 8 [])
          servicesCount := goParseFloatChars ((splitOnSep ',' stdout.toList).getD 9 [])
          servicesActiveCheckCount := goParseFloatChars ((splitOnSep ',' stdout.toList).getD 10 [])
          servicesPassiveCheckCount := goParseFloatChars ((splitOnSep ',' stdout.toList).getD 11 [])
          servicesOkCount := goParseFloatChars ((splitOnSep ',' stdout.toList).getD 12 [])
          servicesWarnCount := goParseFloatChars ((splitOnSep ',' stdout.toList).getD 13 [])
          servicesUnknownCount := goParseFloatChars ((splitOnSep ',' stdout.toList).getD 14 [])
          servicesCriticalCount := goParseFloatChars ((splitOnSep ',' stdout.toList).getD 15 [])
          servicesFlapCount := goParseFloatChars ((splitOnSep ',' stdout.toList).getD 16 [])
          servicesDowntimeCount := goParseFloatChars ((splitOnSep ',' stdout.toList).getD 17 [])
          activehostchecks1m := goParseFloatChars ((splitOnSep ',' stdout.toList).getD 18 [])
          activehostchecks5m := goParseFloatChars ((splitOnSep ',' stdout.toList).getD 19 [])
          activehostchecks15m := goParseFloatChars ((splitOnSep ',' stdout.toList).getD 20 [])
          passivehostchecks1m := goParseFloatChars ((splitOnSep ',' stdout.toList).getD 21 [])
          passivehostchecks5m := goParseFloatChars ((splitOnSep ',' stdout.toList).getD 22 [])
          passivehostchecks15m := goParseFloatChars ((splitOnSep ',' stdout.toList).getD 23 [])
          activeservicechecks1m := goParseFloatChars ((splitOnSep ',' stdout.toList).getD 24 [])
          activeservicechecks5m := goParseFloatChars ((splitOnSep ',' stdout.toList).getD 25 [])
          activeservicechecks15m := goParseFloatChars ((splitOnSep ',' stdout.toList).getD 26 [])
          passiveservicechecks1m := goParseFloatChars ((splitOnSep ',' stdout.toList).getD 27 [])
          passiveservicechecks5m := goParseFloatChars ((splitOnSep ',' stdout.toList).getD 28 [])
          passiveservicechecks15m := goParseFloatChars ((splitOnSep ',' stdout.toList).getD 29 [])
          activehostchecklatencyavg := goParseFloatChars ((splitOnSep ',' stdout.toList).getD 30 [])
          activehostchecklatencymin := goParseFloatChars ((splitOnSep ',' stdout.toList).getD 31 [])
          activehostchecklatencymax := goParseFloatChars ((splitOnSep ',' stdout.toList).getD 32 [])
          activehostcheckexecutionavg := goParseFloatChars ((splitOnSep ',' stdout.toList).getD 33 [])
          activehostcheckexecutionmin := goParseFloatChars ((splitOnSep ',' stdout.toList).getD 34 [])
          activehostcheckexecutionmax := goParseFloatChars ((splitOnSep ',' stdout.toList).getD 35 [])
          activeservicechecklatencyavg := goParseFloatChars ((splitOnSep ',' stdout.toList).getD 36 [])
          activeservicechecklatencymin := goParseFloatChars ((splitOnSep ',' stdout.toList).getD 37 [])
          activeservicechecklatencymax := goParseFloatChars ((splitOnSep ',' stdout.toList).getD 38 [])
          activeservicecheckexecutionavg := goParseFloatChars ((splitOnSep ',' stdout.toList).getD 39 [])
          activeservicecheckexecutionmin := goParseFloatChars ((splitOnSep ',' stdout.toList).getD 40 [])
          activeservicecheckexecutionmax := goParseFloatChars ((splitOnSep ',' stdout.toList).getD 41 []) }) ∧
    ∀ cs, parseFloatCore cs = none → goParseFloatChars cs = 0 := by
  refine ⟨?_, fun cs hcs => by simp [goParseFloatChars, hcs]⟩
  simp only [queryNagiostats, if_pos h, getD_map_goParseFloatChars]

/-- C6 witness: the sample output satisfies the 42-field precondition and the
positional theorem applies to it. -/
theorem queryNagiostatsPositionalWitness :
    42 ≤ (splitOnSep ',' nagiostatsSampleOut.toList).length ∧
    (queryNagiostats nagiostatsSampleOut).isSome = true := by
  have h : 42 ≤ (splitOnSep ',' nagiostatsSampleOut.toList).length := by decide
  exact ⟨h, by rw [(queryNagiostatsPositional nagiostatsSampleOut h).1]; rfl⟩

/-- C7 counterexample: in nagiostats mode (a non-empty binary path) the
declared `nagios_users_total` descriptor is not emitted by `Describe`. -/
theorem describeOmitsUserDescs :
    "nagios_users_total" ∈ declaredDescs ∧
    "nagios_users_total" ∉ describeDescs "/usr/local/nagios/bin/nagiostats" := by
  decide

/-- C7 amended: in API mode `Describe` emits every declared descriptor; in
nagiostats mode it emits exactly the declared descriptors minus the
acknowledgement, checked-total and user descriptors that mode cannot
collect. -/
theorem describeEmitsByMode :
    (∀ d ∈ declaredDescs, d ∈ describeDescs "") ∧
    (∀ nagiostatsPath : String, nagiostatsPath ≠ "" →
      describeDescs nagiostatsPath
        = declaredDescs.filter (fun d => d ∉ apiOnlyDescs)) := by
  refine ⟨by decide, fun path hp => ?_⟩
  simp only [describeDescs, if_neg hp]
  decide

/-- C7 witness: the amended statement applied to a concrete nagiostats
binary path. -/
theorem describeEmitsByModeWitness :
    ("/usr/local/nagios/bin/nagiostats" : String) ≠ "" ∧
    describeDescs "/usr/local/nagios/bin/nagiostats"
      = declaredDescs.filter (fun d => d ∉ apiOnlyDescs) :=
  ⟨by decide, describeEmitsByMode.2 "/usr/local/nagios/bin/nagiostats" (by decide)⟩

/-! ### Supporting lemmas on list occurrences -/

theorem prefix_append_cases {α : Type} {key b : List α} :
    ∀ {a : List α}, key <+: a ++ b → key <+: a ∨ ∃ k2, key = a ++ k2 ∧ k2 <+: b := by
  intro a
  induction a generalizing key with
  | nil => exact fun h => Or.inr ⟨key, rfl, h⟩
  | cons c a' ih =>
      intro h
      cases key with
      | nil => exact Or.inl List.nil_prefix
      | cons d k' =>
          obtain ⟨rfl, hk'⟩ := List.cons_prefix_cons.mp h
          rcases ih hk' with h1 | ⟨k2, rfl, h2⟩
          · exact Or.inl (List.cons_prefix_cons.mpr ⟨rfl, h1⟩)
          · exact Or.inr ⟨k2, by simp, h2⟩

theorem infix_append_cases {α : Type} {key b : List α} :
    ∀ {a : List α}, key <:+: a ++ b →
      key <:+: a ∨ key <:+: b ∨
        ∃ k1 k2, key = k1 ++ k2 ∧ k1 ≠ [] ∧ k2 ≠ [] ∧ k1 <:+ a ∧ k2 <+: b := by
  intro a
  induction a generalizing key with
  | nil => exact fun h => Or.inr (Or.inl (by simpa using h))
  | cons c a' ih =>
      intro h
      rw [List.cons_append] at h
      rcases List.infix_cons_iff.mp h with hp | hi
      · cases key with
        | nil => exact Or.inl (List.nil_infix)
        | cons d k' =>
            obtain ⟨rfl, hk'⟩ := List.cons_prefix_cons.mp hp
            rcases prefix_append_cases hk' with h1 | ⟨k2, rfl, h2⟩
            · exact Or.inl (List.cons_prefix_cons.mpr ⟨rfl, h1⟩).isInfix
            · rcases eq_or_ne k2 [] with rfl | hk2
              · exact Or.inl (by simp)
              · exact Or.inr (Or.inr
                  ⟨d :: a', k2, by simp, by simp, hk2, List.suffix_refl _, h2⟩)
      · rcases ih hi with h1 | h2 | ⟨k1, k2, rfl, hk1, hk2, hs, hp2⟩
        · exact Or.inl (h1.trans (List.suffix_cons c a').isInfix)
        · exact Or.inr (Or.inl h2)
        · exact Or.inr (Or.inr
            ⟨k1, k2, rfl, hk1, hk2, hs.trans (List.suffix_cons c a'), hp2⟩)

/-- A nonempty suffix contains the last element of the list. -/
theorem getLast_mem_of_suf {α : Type} {k l : List α} {a : α}
    (hk : k ≠ []) (h : k <:+ l) (hl : l.getLast? = some a) : a ∈ k := by
  obtain ⟨u, rfl⟩ := h
  rw [List.getLast?_append_of_ne_nil u hk] at hl
  exact List.mem_of_mem_getLast? hl

/-- A nonempty prefix contains the head of the list. -/
theorem head_mem_of_pref {α : Type} {k l : List α} {a : α}
    (hk : k ≠ []) (h : k <+: l) (hl : l.head? = some a) : a ∈ k := by
  obtain ⟨u, rfl⟩ := h
  rw [List.head?_append_of_ne_nil k hk] at hl
  exact List.mem_of_mem_head? hl

theorem goReplaceAll_nil (key rep : List Char) : goReplaceAll key rep [] = [] := by
  simp only [goReplaceAll]

theorem goReplaceAll_cons (key rep : List Char) (c : Char) (t : List Char) :
    goReplaceAll key rep (c :: t)
      = if key ≠ [] ∧ key <+: (c :: t) then
          rep ++ goReplaceAll key rep ((c :: t).drop key.length)
        else c :: goReplaceAll key rep t := by
  simp only [goReplaceAll, dite_eq_ite]

/-- The function `goReplaceAll` cannot manufacture a prefix occurrence of a pattern that
avoids the replacement's first character: if `k'` is not a prefix of `t`, it
is not a prefix of the rewritten `t` either. -/
theorem goReplaceAll_keeps_no_pref (key rep : List Char) (hc : Char)
    (hrep : rep.head? = some hc) :
    ∀ t k' : List Char, k' ≠ [] → hc ∉ k' → ¬ k' <+: t →
      ¬ k' <+: goReplaceAll key rep t := by
  intro t
  induction t with
  | nil =>
      intro k' _ _ hnp hcon
      rw [goReplaceAll_nil] at hcon
      exact hnp hcon
  | cons c t2 ih =>
      intro k' hk hhc hnp
      rw [goReplaceAll_cons]
      by_cases hx : key ≠ [] ∧ key <+: (c :: t2)
      · rw [if_pos hx]
        intro hcon
        refine hhc ?_
        refine head_mem_of_pref hk hcon ?_
        rcases rep with _ | ⟨r0, rrest⟩
        · cases hrep
        · simpa using hrep
      · rw [if_neg hx]
        intro hcon
        rcases k' with _ | ⟨d, k''⟩
        · exact hk rfl
        · obtain ⟨rfl, hk''⟩ := List.cons_prefix_cons.mp hcon
          rcases eq_or_ne k'' [] with rfl | hne
          · exact hnp (List.cons_prefix_cons.mpr ⟨rfl, List.nil_prefix⟩)
          · have hnp2 : ¬ k'' <+: t2 := fun hpp =>
              hnp (List.cons_prefix_cons.mpr ⟨rfl, hpp⟩)
            exact ih k'' hne (fun hm => hhc (List.mem_cons_of_mem _ hm)) hnp2 hk''

/-- The key result about `strings.ReplaceAll(s, key, "<redactedAPIKey>")`:
when the key is nonempty, contains neither `<` nor `>` and is not a
substring of the replacement text, the rewritten string contains no
occurrence of the key at all. -/
theorem goReplaceAll_no_occurrence (key : List Char) (hk : key ≠ [])
    (hlt : '<' ∉ key) (hgt : '>' ∉ key) (hrep : ¬ key <:+: redactedChars) :
    ∀ s, ¬ key <:+: goReplaceAll key redactedChars s := by
  have main : ∀ n (s : List Char), s.length ≤ n →
      ¬ key <:+: goReplaceAll key redactedChars s := by
    intro n
    induction n with
    | zero =>
        intro s hs
        obtain rfl : s = [] := List.length_eq_zero.mp (Nat.le_zero.mp hs)
        rw [goReplaceAll_nil]
        simpa using hk
    | succ n ih =>
        intro s hs
        rcases s with _ | ⟨c, t⟩
        · rw [goReplaceAll_nil]
          simpa using hk
        · rw [goReplaceAll_cons]
          by_cases hx : key ≠ [] ∧ key <+: (c :: t)
          · rw [if_pos hx]
            intro hcon
            rcases infix_append_cases hcon with h1 | h2 | ⟨k1, k2, hkey, hk1, _, hsuf, _⟩
            · exact hrep h1
            · refine ih _ ?_ h2
              have hkl : 0 < key.length := List.length_pos.mpr hk
              have hsl : t.length + 1 ≤ n + 1 := by simpa using hs
              simp only [List.length_drop, List.length_cons]
              omega
            · have hmem : '>' ∈ k1 :=
                getLast_mem_of_suf hk1 hsuf (by decide)
              exact hgt (hkey ▸ List.mem_append.mpr (Or.inl hmem))
          · rw [if_neg hx]
            have hnp : ¬ key <+: (c :: t) := fun hp => hx ⟨hk, hp⟩
            intro hcon
            rcases List.infix_cons_iff.mp hcon with hp | hi
            · rcases key with _ | ⟨d, k''⟩
              · exact hk rfl
              · obtain ⟨rfl, hk''⟩ := List.cons_prefix_cons.mp hp
                rcases eq_or_ne k'' [] with rfl | hne
                · exact hnp (List.cons_prefix_cons.mpr ⟨rfl, List.nil_prefix⟩)
                · have hnp2 : ¬ k'' <+: t := fun hpp =>
                    hnp (List.cons_prefix_cons.mpr ⟨rfl, hpp⟩)
                  exact goReplaceAll_keeps_no_pref _ redactedChars '<' rfl t k''
                    hne (fun hm => hlt (List.mem_cons_of_mem _ hm)) hnp2 hk''
            · exact ih t (by simpa using Nat.succ_le_succ_iff.mp (by simpa using hs)) hi
  exact fun s => main s.length s le_rfl

/-- Model fact: `bytes.Trim` only removes characters from the ends: its result is an
infix of its input. -/
theorem goTrim_within (s cutset : List Char) : goTrim s cutset <:+: s := by
  unfold goTrim
  have h1 : s.dropWhile (fun c => c ∈ cutset) <:+ s := List.dropWhile_suffix _
  have h3 : (s.dropWhile (fun c => c ∈ cutset)).reverse.dropWhile (fun c => c ∈ cutset)
      <:+ (s.dropWhile (fun c => c ∈ cutset)).reverse := List.dropWhile_suffix _
  have h2 : ((s.dropWhile (fun c => c ∈ cutset)).reverse.dropWhile
      (fun c => c ∈ cutset)).reverse <+: s.dropWhile (fun c => c ∈ cutset) :=
    List.reverse_suffix.mp (by simpa using h3)
  exact h2.isInfix.trans h1.isInfix

/-- The formatter output never contains the (well-behaved) API key. -/
theorem nagiosFormatterNoKey (key entry : List Char) (hk : key ≠ [])
    (hlt : '<' ∉ key) (hgt : '>' ∉ key) (hrep : ¬ key <:+: redactedChars) :
    ¬ key <:+: nagiosFormatterFormat key entry := fun hcon =>
  goReplaceAll_no_occurrence key hk hlt hgt hrep entry
    (hcon.trans (goTrim_within _ _))

theorem splitOnSep_eq_of_not_mem {sep : Char} :
    ∀ {l : List Char}, sep ∉ l → splitOnSep sep l = [l] := by
  intro l
  induction l with
  | nil => intro _; rfl
  | cons c t ih =>
      intro h
      have hc : ¬ c = sep := fun e => h (by simp [e])
      have ht : sep ∉ t := fun hm => h (List.mem_cons_of_mem _ hm)
      simp [splitOnSep, hc, ih ht]

theorem firstIdx_take_eq (pat : List Char) :
    ∀ (s : List Char) (i : ℕ), firstIdx pat s = some i →
      s.take (i + pat.length) = s.take i ++ pat := by
  intro s
  induction s with
  | nil =>
      intro i h
      rw [firstIdx] at h
      by_cases hp : pat = []
      · rw [if_pos hp] at h
        obtain rfl : (0 : ℕ) = i := Option.some.inj h
        subst hp
        rfl
      · rw [if_neg hp] at h
        cases h
  | cons c t ih =>
      intro i h
      rw [firstIdx] at h
      by_cases hp : pat <+: (c :: t)
      · rw [if_pos hp] at h
        obtain rfl : (0 : ℕ) = i := Option.some.inj h
        simp only [Nat.zero_add, List.take_zero, List.nil_append]
        exact (List.prefix_iff_eq_take.mp hp).symm
      · rw [if_neg hp] at h
        rcases hj : firstIdx pat t with _ | j
        · rw [hj] at h
          cases h
        · rw [hj] at h
          obtain rfl : j + 1 = i := by simpa using h
          rw [show j + 1 + pat.length = (j + pat.length) + 1 from by omega]
          simp only [List.take_succ_cons, ih j hj, List.cons_append]

/-- Occurrence freedom for a single sanitized line, given that the key avoids
`<`, is not part of the replacement text, and occurs in the line only in the
region the rewrite erases (strictly after the first `apikey=`). -/
theorem sanitizeLine_no_key (key line : List Char) (i : ℕ)
    (hidx : firstIdx apikeyPat line = some i)
    (hpre : ¬ key <:+: line.take (i + apikeyPat.length))
    (hlt : '<' ∉ key) (hrep : ¬ key <:+: redactedChars) :
    ¬ key <:+: sanitizeLine line := by
  have hline : sanitizeLine line
      = line.take (i + apikeyPat.length) ++ redactedChars := by
    rw [sanitizeLine, hidx, firstIdx_take_eq apikeyPat line i hidx]
  intro hcon
  rw [hline] at hcon
  rcases infix_append_cases hcon with h1 | h2 | ⟨k1, k2, hkey, _, hk2, _, hp2⟩
  · exact hpre h1
  · exact hrep h2
  · have hmem : '<' ∈ k2 := head_mem_of_pref hk2 hp2 rfl
    exact hlt (hkey ▸ List.mem_append.mpr (Or.inr hmem))

/-- Occurrence freedom for a sanitized single-line error message. -/
theorem sanitizeNoKeySingleLine (key msg : List Char) (i : ℕ)
    (hnl : '\n' ∉ msg) (hidx : firstIdx apikeyPat msg = some i)
    (hpre : ¬ key <:+: msg.take (i + apikeyPat.length))
    (hlt : '<' ∉ key) (hrep : ¬ key <:+: redactedChars) :
    ¬ key <:+: sanitizeAPIKeyErrors msg := by
  rw [sanitizeAPIKeyErrors, splitOnSep_eq_of_not_mem hnl]
  simpa [List.intercalate] using sanitizeLine_no_key key msg i hidx hpre hlt hrep

/-- C8 counterexample: the message `SECRET apikey=SECRET` contains
`apikey=` followed by the configured key `SECRET`, yet the sanitized message
still contains the key — the regexp only erases what follows `apikey=`, so
the earlier occurrence survives. -/
theorem sanitizeKeepsLeadingKey :
    (apikeyPat ++ "SECRET".toList) <:+: "SECRET apikey=SECRET".toList ∧
    "SECRET".toList <:+: sanitizeAPIKeyErrors "SECRET apikey=SECRET".toList := by
  decide

/-- C8 amended: for a nonempty key containing neither `<` nor `>` and not a
substring of `<redactedAPIKey>`, (a) a single-line error message in which
the key occurs only after the first `apikey=` sanitizes to a message with no
occurrence of the key, and (b) every formatted log entry is scrubbed of all
occurrences of the key. -/
theorem redactionAmended (key msg entry : List Char) (i : ℕ)
    (hkne : key ≠ []) (hlt : '<' ∉ key) (hgt : '>' ∉ key)
    (hrep : ¬ key <:+: redactedChars) (hnl : '\n' ∉ msg)
    (hidx : firstIdx apikeyPat msg = some i)
    (hpre : ¬ key <:+: msg.take (i + apikeyPat.length)) :
    ¬ key <:+: sanitizeAPIKeyErrors msg ∧
    ¬ key <:+: nagiosFormatterFormat key entry :=
  ⟨sanitizeNoKeySingleLine key msg i hnl hidx hpre hlt hrep,
   nagiosFormatterNoKey key entry hkne hlt hgt hrep⟩

/-- C8 witness: the amended statement at the key `SECRET`, the message
`apikey=SECRET` and a concrete log entry leaking the key. -/
theorem redactionAmendedWitness :
    ("SECRET".toList ≠ [] ∧ '<' ∉ "SECRET".toList ∧ '>' ∉ "SECRET".toList ∧
      ¬ "SECRET".toList <:+: redactedChars ∧
      '\n' ∉ "apikey=SECRET".toList ∧
      firstIdx apikeyPat "apikey=SECRET".toList = some 0 ∧
      ¬ "SECRET".toList <:+: "apikey=SECRET".toList.take (0 + apikeyPat.length)) ∧
    (¬ "SECRET".toList <:+: sanitizeAPIKeyErrors "apikey=SECRET".toList ∧
     ¬ "SECRET".toList <:+:
        nagiosFormatterFormat "SECRET".toList
          "Get http://localhost/nagiosxi/api/v1/system/status?apikey=SECRET refused".toList) :=
  ⟨⟨by decide, by decide, by decide, by decide, by decide, by decide, by decide⟩,
   redactionAmended "SECRET".toList "apikey=SECRET".toList
     "Get http://localhost/nagiosxi/api/v1/system/status?apikey=SECRET refused".toList 0
     (by decide) (by decide) (by decide) (by decide) (by decide) (by decide) (by decide)⟩

theorem ne_empty_of_xi {d : String} (h : hasXiPre d) : d ≠ "" := by
  intro he
  subst he
  exact absurd (List.prefix_nil.mp h) (by decide)

theorem firstXiVersion_append (a b : List String) :
    firstXiVersion (a ++ b)
      = if firstXiVersion a = "" then firstXiVersion b
        else firstXiVersion a := by
  induction a with
  | nil => simp [firstXiVersion]
  | cons d t ih =>
      by_cases hd : hasXiPre d
      · have hne := ne_empty_of_xi hd
        simp [firstXiVersion, hd, hne]
      · simpa [firstXiVersion, hd] using ih

/-- Structural induction for the nested `HtmlNode` tree. -/
theorem HtmlNode.inductionOn (P : HtmlNode → Prop)
    (h : ∀ t d cs, (∀ c ∈ cs, P c) → P (HtmlNode.mk t d cs)) :
    ∀ n, P n
  | .mk t d cs => h t d cs fun c hc =>
      HtmlNode.inductionOn P h c
termination_by n => sizeOf n
decreasing_by
  have := List.sizeOf_lt_of_mem hc
  simp only [HtmlNode.mk.sizeOf_spec]
  omega

theorem traverseChildren_eq_firstXi (cs : List HtmlNode)
    (ih : ∀ c ∈ cs, traverse c = firstXiVersion (textData c)) :
    traverseChildren cs = firstXiVersion (textDataChildren cs) := by
  induction cs with
  | nil => rfl
  | cons c rest ihrest =>
      have h1 := ih c (List.mem_cons_self c rest)
      have h3 := ihrest fun x hx => ih x (List.mem_cons_of_mem _ hx)
      rw [traverseChildren]
      simp only [h1, h3, textDataChildren, firstXiVersion_append]
      by_cases he : firstXiVersion (textData c) = "" <;> simp [he]

/-- The part_006 traversal returns the first text node of the tree, in
document order, whose data starts with `xi-`. -/
theorem traverse_eq_firstXi (n : HtmlNode) :
    traverse n = firstXiVersion (textData n) := by
  refine HtmlNode.inductionOn
    (fun m => traverse m = firstXiVersion (textData m)) ?_ n
  intro t d cs ih
  have hc1 := traverseChildren_eq_firstXi cs ih
  by_cases ht : t = NodeType.textNode
  · subst ht
    by_cases hd : hasXiPre d
    · simp [traverse, textData, firstXiVersion, hd]
    · simpa [traverse, textData, firstXiVersion, hd] using hc1
  · have ht2 : ¬ (t = NodeType.textNode ∧ hasXiPre d) :=
      fun hh => ht hh.1
    rw [traverse]
    simp only [if_neg ht2, textData, if_neg ht]
    exact hc1

/-- The part_005 scanner returns the first text token of the stream whose
data starts with `xi-`. -/
theorem scanTokens_eq_firstXi (toks : List HtmlToken) :
    scanTokens toks = firstXiVersion (textTokens toks) := by
  induction toks with
  | nil => rfl
  | cons tok rest ih =>
      cases tok with
      | text d =>
          by_cases hd : hasXiPre d
          · simp [scanTokens, textTokens, firstXiVersion, hd]
          · simpa [scanTokens, textTokens, firstXiVersion, hd] using ih
      | other => simpa [scanTokens, textTokens] using ih

/-- C10 counterexample: on the raw HTML input `xi<!DOCTYPE html>-9` the two
revisions disagree.  The tokenizer delivers the character runs `xi` and
`-9` as separate text tokens with the doctype between them, so the part_005
scanner finds no token starting with `xi-` and returns `""`; tree
construction drops the ignored doctype and merges the two runs into the
single text node `xi-9`, which the part_006 traversal returns. -/
theorem scanTraverseDisagree :
    scanTokens doctypeSplitStream = "" ∧
    traverse doctypeSplitDoc = "xi-9" ∧
    scanTokens doctypeSplitStream ≠ traverse doctypeSplitDoc := by
  have h1 : scanTokens doctypeSplitStream = "" := by decide
  have h2 : traverse doctypeSplitDoc = "xi-9" := by
    simp [traverse, traverseChildren, doctypeSplitDoc, hasXiPre]
  exact ⟨h1, h2, by rw [h1, h2]; decide⟩

/-- C10 amended: each revision returns the first `xi-`-prefixed text of its
own input representation — the scanner the first matching text token of the
stream, the traversal the first matching text node of the tree in document
order, both `""` when none exists — so the two agree on exactly those
inputs where the tokenizer's text tokens and the parse tree's text nodes
coincide in data and order (tree construction can merge or move character
runs, as the counterexample shows). -/
theorem scanTraverseAgreeOnSameText (toks : List HtmlToken) (doc : HtmlNode)
    (h : textTokens toks = textData doc) :
    scanTokens toks = traverse doc ∧
    scanTokens toks = firstXiVersion (textTokens toks) ∧
    traverse doc = firstXiVersion (textData doc) := by
  have h1 := scanTokens_eq_firstXi toks
  have h2 := traverse_eq_firstXi doc
  exact ⟨by rw [h1, h2, h], h1, h2⟩

/-- C10 witness: the amended statement at a concrete stream/tree pair
carrying the same text. -/
theorem scanTraverseAgreeOnSameTextWitness :
    textTokens sameTextStream = textData sameTextDoc ∧
    scanTokens sameTextStream = traverse sameTextDoc := by
  have h : textTokens sameTextStream = textData sameTextDoc := by
    simp [textTokens, textData, textDataChildren, sameTextStream, sameTextDoc]
  exact ⟨h, (scanTraverseAgreeOnSameText sameTextStream sameTextDoc h).1⟩

end NagiosExporter
